import Mathlib

/-!
Verification development for the `bloblob` push-notification client
(`src/index.js`).  The JavaScript source is shallowly embedded below:

* `targetError`, `lob`, `lobToAll`, `postToApi` (the symbol-named private
  method) and `generateUrl` are translated function by function;
* the HTTP transport (`simple-get`) is an external collaborator and is
  modelled by the `TransportResult` type following the transport boundary
  contract of the specification: a call either fails with an error (in
  which case the callback receives no response data) or yields a status
  code and a response body;
* `JSON.parse`, `Array.prototype.join`, property access and
  `URLSearchParams` serialisation are JavaScript builtins; they are
  modelled by executable Lean functions (`jsonParse`, `jsArrayJoin`,
  `jsLookup`, `formEncode`) mirroring their standard semantics;
* the promise machinery of `allPromisesSettled` is modelled as a state
  machine driven by the list of settlement events (promise index paired
  with the settled value), in the order in which the settlements arrive.
-/

/-- JavaScript JSON values as produced by `JSON.parse`.  Numbers keep the
raw source token (no claim inspects numeric values). -/
inductive Json where
  | null : Json
  | bool : Bool → Json
  | num : String → Json
  | str : String → Json
  | arr : List Json → Json
  | obj : List (String × Json) → Json
deriving Inhabited

/-- Whitespace accepted between JSON tokens by `JSON.parse`. -/
def isJsonWs (c : Char) : Bool :=
  c == ' ' || c == '\t' || c == '\n' || c == '\r'

/-- Drop leading JSON whitespace. -/
def skipWs : List Char → List Char
  | [] => []
  | c :: cs => if isJsonWs c then skipWs cs else c :: cs

/-- Value of one hexadecimal digit, if any. -/
def hexVal (c : Char) : Option Nat :=
  if '0' ≤ c ∧ c ≤ '9' then some (c.toNat - '0'.toNat)
  else if 'a' ≤ c ∧ c ≤ 'f' then some (10 + c.toNat - 'a'.toNat)
  else if 'A' ≤ c ∧ c ≤ 'F' then some (10 + c.toNat - 'A'.toNat)
  else none

/-- Parse the body of a JSON string literal (the opening quote already
consumed), handling the escape sequences `JSON.parse` accepts and
rejecting raw control characters. -/
def parseStrBody (acc : List Char) : List Char → Option (String × List Char)
  | [] => none
  | c :: cs =>
    if c == '"' then some (String.mk acc.reverse, cs)
    else if c == '\\' then
      match cs with
      | [] => none
      | e :: cs2 =>
        if e == '"' then parseStrBody ('"' :: acc) cs2
        else if e == '\\' then parseStrBody ('\\' :: acc) cs2
        else if e == '/' then parseStrBody ('/' :: acc) cs2
        else if e == 'b' then parseStrBody ('\x08' :: acc) cs2
        else if e == 'f' then parseStrBody ('\x0c' :: acc) cs2
        else if e == 'n' then parseStrBody ('\n' :: acc) cs2
        else if e == 'r' then parseStrBody ('\r' :: acc) cs2
        else if e == 't' then parseStrBody ('\t' :: acc) cs2
        else if e == 'u' then
          match cs2 with
          | h1 :: h2 :: h3 :: h4 :: cs3 =>
            match hexVal h1, hexVal h2, hexVal h3, hexVal h4 with
            | some a, some b, some c', some d =>
              parseStrBody (Char.ofNat (((a * 16 + b) * 16 + c') * 16 + d) :: acc) cs3
            | _, _, _, _ => none
          | _ => none
        else none
    else if c.toNat < 0x20 then none
    else parseStrBody (c :: acc) cs

/-- Exponent part of a JSON number (possibly empty). -/
def parseExpPart (acc : List Char) (cs : List Char) : Option (String × List Char) :=
  match cs with
  | 'e' :: rest | 'E' :: rest =>
    let (sign, rest2) :=
      match rest with
      | '+' :: r => (['+'], r)
      | '-' :: r => (['-'], r)
      | r => (([] : List Char), r)
    let (ds, rest3) := rest2.span Char.isDigit
    if ds.isEmpty then none
    else some (String.mk (acc ++ 'e' :: sign ++ ds), rest3)
  | _ => some (String.mk acc, cs)

/-- Fraction and exponent parts of a JSON number (possibly empty). -/
def parseFracExp (acc : List Char) (cs : List Char) : Option (String × List Char) :=
  match cs with
  | '.' :: rest =>
    let (ds, rest2) := rest.span Char.isDigit
    if ds.isEmpty then none
    else parseExpPart (acc ++ '.' :: ds) rest2
  | _ => parseExpPart acc cs

/-- Parse a JSON number token starting at the current position, following
the JSON grammar (`-?(0|[1-9][0-9]*)(\.[0-9]+)?([eE][+-]?[0-9]+)?`). -/
def parseNumber (cs : List Char) : Option (String × List Char) :=
  let (neg, cs1) :=
    match cs with
    | '-' :: r => ((['-'] : List Char), r)
    | r => (([] : List Char), r)
  match cs1 with
  | '0' :: r => parseFracExp (neg ++ ['0']) r
  | c :: _ =>
    if c.isDigit then
      let (ds, rest) := cs1.span Char.isDigit
      parseFracExp (neg ++ ds) rest
    else none
  | [] => none

mutual

/-- Recursive-descent parser for one JSON value.  `fuel` dominates the
recursion depth: each call consumes at least one character per two units
of fuel, so `2 * length + 16` at top level never runs dry. -/
def parseVal : Nat → List Char → Option (Json × List Char)
  | 0, _ => none
  | fuel + 1, cs =>
    match skipWs cs with
    | [] => none
    | c :: rest =>
      if c == '"' then
        (parseStrBody [] rest).map (fun p => (Json.str p.1, p.2))
      else if c == '{' then
        match skipWs rest with
        | '}' :: r => some (Json.obj [], r)
        | r2 => parseFields fuel r2 []
      else if c == '[' then
        match skipWs rest with
        | ']' :: r => some (Json.arr [], r)
        | r2 => parseElems fuel r2 []
      else if c == 't' then
        match rest with
        | 'r' :: 'u' :: 'e' :: r => some (Json.bool true, r)
        | _ => none
      else if c == 'f' then
        match rest with
        | 'a' :: 'l' :: 's' :: 'e' :: r => some (Json.bool false, r)
        | _ => none
      else if c == 'n' then
        match rest with
        | 'u' :: 'l' :: 'l' :: r => some (Json.null, r)
        | _ => none
      else if c == '-' || c.isDigit then
        (parseNumber (c :: rest)).map (fun p => (Json.num p.1, p.2))
      else none

/-- Parse the elements of a non-empty JSON array (after `[`). -/
def parseElems : Nat → List Char → List Json → Option (Json × List Char)
  | 0, _, _ => none
  | fuel + 1, cs, acc =>
    match parseVal fuel cs with
    | none => none
    | some (v, rest) =>
      match skipWs rest with
      | ',' :: r => parseElems fuel r (v :: acc)
      | ']' :: r => some (Json.arr (v :: acc).reverse, r)
      | _ => none

/-- Parse the fields of a non-empty JSON object (after `{`). -/
def parseFields : Nat → List Char → List (String × Json) → Option (Json × List Char)
  | 0, _, _ => none
  | fuel + 1, cs, acc =>
    match skipWs cs with
    | '"' :: r =>
      match parseStrBody [] r with
      | none => none
      | some (k, r2) =>
        match skipWs r2 with
        | ':' :: r3 =>
          match parseVal fuel r3 with
          | none => none
          | some (v, r4) =>
            match skipWs r4 with
            | ',' :: r5 => parseFields fuel r5 ((k, v) :: acc)
            | '}' :: r5 => some (Json.obj ((k, v) :: acc).reverse, r5)
            | _ => none
        | _ => none
    | _ => none

end

/-- Model of `JSON.parse`: parse a complete JSON document; `none` models a
thrown `SyntaxError`. -/
def jsonParse (s : String) : Option Json :=
  match parseVal (2 * s.length + 16) s.data with
  | some (j, rest) => if (skipWs rest).isEmpty then some j else none
  | none => none

/-- Property lookup on a parsed JSON object.  `JSON.parse` keeps the last
of duplicate keys, hence the reversed search. -/
def jsLookup (fields : List (String × Json)) (key : String) : Option Json :=
  (fields.reverse.find? (fun p => p.1 == key)).map (fun p => p.2)

mutual

/-- How `Array.prototype.join` renders one element: `null` (and
`undefined`) become the empty string, nested arrays render as their
comma-joined elements, objects as `[object Object]`. -/
def jsElemStr : Json → String
  | Json.null => ""
  | Json.bool b => if b then "true" else "false"
  | Json.num s => s
  | Json.str s => s
  | Json.arr xs => jsElemsStr xs
  | Json.obj _ => "[object Object]"

/-- Comma-joined rendering of a list of elements (nested-array case). -/
def jsElemsStr : List Json → String
  | [] => ""
  | [x] => jsElemStr x
  | x :: y :: xs => jsElemStr x ++ "," ++ jsElemsStr (y :: xs)

end

/-- Model of `xs.join(sep)` on a parsed JSON array. -/
def jsArrayJoin (sep : String) (xs : List Json) : String :=
  String.intercalate sep (xs.map jsElemStr)

/-- A JavaScript `Error` as this library uses it: a message plus the
optional `.target` back-reference installed by `targetError`. -/
structure JsError where
  message : String
  target : Option String
deriving DecidableEq, Repr

/-- `new Error(msg)` (no `.target` property). -/
def jsError (msg : String) : JsError := ⟨msg, none⟩

/-- `targetError(target, msg)` from the source: an `Error` carrying a
`.target` back-reference to the recipient. -/
def targetError (target msg : String) : JsError := ⟨msg, some target⟩

/-- The `TypeError` the JavaScript runtime throws when `generateUrl`
evaluates `title.length` while `title` is `undefined`. -/
def titleLengthTypeError : JsError :=
  jsError "TypeError: Cannot read properties of undefined (reading 'length')"

/-- A JavaScript value as it can appear as a promise's settlement value in
this library: `undefined`, a JSON-derived value, or an `Error`. -/
inductive JsVal where
  | undef : JsVal
  | ofJson : Json → JsVal
  | jerr : JsError → JsVal

/-- Result of one transport call, following the specification's transport
boundary contract: either a transport-level error (in which case the
callback receives no response data) or a status code with the response
body bytes (decoded here as the body string). -/
inductive TransportResult where
  | transportError : String → TransportResult
  | response : Nat → String → TransportResult

/-- How one call to `postToApi` can turn out, seen through its returned
promise: it resolves, rejects, or never settles (`hung` — the code threw
inside the transport callback, outside the promise executor, so neither
`resolve` nor `reject` is ever called). -/
inductive PostOutcome where
  | resolved : JsVal → PostOutcome
  | rejected : JsError → PostOutcome
  | hung : PostOutcome

/-- Fixed messaging endpoint from the source. -/
def API_EP_MESSAGES : String := "https://api.pushover.net/1/messages.json"

/-- One hexadecimal digit, uppercase (as `URLSearchParams` emits). -/
def hexDigitUpper (n : Nat) : String :=
  String.singleton (if n < 10 then Char.ofNat ('0'.toNat + n) else Char.ofNat ('A'.toNat + n - 10))

/-- `application/x-www-form-urlencoded` serialisation of one UTF-8 byte,
as `URLSearchParams.toString` does it: alphanumerics and `*-._` kept,
space becomes `+`, everything else percent-encoded. -/
def encByte (b : Nat) : String :=
  if b = 0x20 then "+"
  else if (0x30 ≤ b ∧ b ≤ 0x39) ∨ (0x41 ≤ b ∧ b ≤ 0x5A) ∨ (0x61 ≤ b ∧ b ≤ 0x7A)
      ∨ b = 0x2A ∨ b = 0x2D ∨ b = 0x2E ∨ b = 0x5F then
    String.singleton (Char.ofNat b)
  else "%" ++ hexDigitUpper (b / 16) ++ hexDigitUpper (b % 16)

/-- UTF-8 encoding of one code point, as a list of byte values. -/
def utf8Bytes (c : Char) : List Nat :=
  let n := c.toNat
  if n < 0x80 then [n]
  else if n < 0x800 then [0xC0 + n / 64, 0x80 + n % 64]
  else if n < 0x10000 then [0xE0 + n / 4096, 0x80 + n / 64 % 64, 0x80 + n % 64]
  else [0xF0 + n / 262144, 0x80 + n / 4096 % 64, 0x80 + n / 64 % 64, 0x80 + n % 64]

/-- Form-encode a string byte-wise over its UTF-8 encoding. -/
def formEncode (s : String) : String :=
  String.join (s.data.map (fun c => String.join ((utf8Bytes c).map encByte)))

/-- Render a `URLSearchParams` query string from key/value pairs. -/
def renderQuery (ps : List (String × String)) : String :=
  String.intercalate "&" (ps.map (fun p => formEncode p.1 ++ "=" ++ formEncode p.2))

/-- JavaScript string interpolation of `this.appToken`: an unset field
renders as `"undefined"` when `URLSearchParams` stringifies it. -/
def jsShow (s : Option String) : String :=
  match s with
  | some t => t
  | none => "undefined"

/-- The ordered parameter list `generateUrl` builds, or the `TypeError` it
throws.  Translated from `[generateUrl]` in `src/index.js`: the `title`
parameter is added when `typeof title === 'string' && title.length > 0`;
the `device` parameter is added when `typeof device === 'string' &&
title.length > 0` — the source really tests `title.length` in the device
condition, and evaluating `title.length` throws when `device` is a string
but `title` is `undefined`. -/
def urlParams (appToken : Option String) (userToken message : String)
    (title device : Option String) : Except JsError (List (String × String)) :=
  let base := [("token", jsShow appToken), ("user", userToken), ("message", message)]
  let withTitle :=
    match title with
    | some t => if t.length > 0 then base ++ [("title", t)] else base
    | none => base
  match device with
  | some d =>
    match title with
    | none => Except.error titleLengthTypeError
    | some t => if t.length > 0 then Except.ok (withTitle ++ [("device", d)]) else Except.ok withTitle
  | none => Except.ok withTitle

/-- `[generateUrl]`: the full request URL (or the thrown `TypeError`). -/
def generateUrl (appToken : Option String) (userToken message : String)
    (title device : Option String) : Except JsError String :=
  (urlParams appToken userToken message title device).map
    (fun ps => API_EP_MESSAGES ++ "?" ++ renderQuery ps)

/-- The part of `[postToApi]` that runs synchronously inside the promise
executor before any network I/O: the length guard, then URL construction.
An `Except.error` means the promise rejects (or the executor throws)
before the transport is ever invoked; `Except.ok url` means the transport
request is issued to `url`. -/
def preparePost (appToken : Option String) (target message : String)
    (title device : Option String) : Except JsError String :=
  if message.length > 1024 then Except.error (targetError target "Message is too long")
  else generateUrl appToken target message title device

/-- The error built for a 200 response whose handling threw inside the
`try` block (unparsable JSON, or `null.request`). -/
def malformedErr (target strData : String) : JsError :=
  targetError target ("Response from pushover.net is malformed? " ++ strData)

/-- `json.request` access on the parsed 200 response: present fields
resolve with their value, anything without a `request` property resolves
with `undefined` (property access on non-null primitives and arrays). -/
def requestField : Json → JsVal
  | Json.obj fields =>
    match jsLookup fields "request" with
    | some v => JsVal.ofJson v
    | none => JsVal.undef
  | _ => JsVal.undef

/-- The transport callback of `[postToApi]` (`(err, res, data) => ...`),
translated line by line.  `data.toString('utf8')` is evaluated first: when
the transport reported an error it passed no `data`, so that line throws
and the promise never settles (`hung`).  A transport error with data
present would be rejected as-is, without a `.target` tag.  On a non-200
status, `JSON.parse` runs outside any `try`, and `json.errors.join(' ')`
requires an `errors` array — a parse failure or a missing/non-array
`errors` throws in the callback (`hung`).  On a 200 status the `try`
block catches both a parse failure and the `null.request` `TypeError`,
rejecting with the malformed-response error. -/
def postApiCallback (target : String) (err : Option String) (status : Nat)
    (data : Option String) : PostOutcome :=
  match data with
  | none => PostOutcome.hung
  | some strData =>
    match err with
    | some e => PostOutcome.rejected (jsError e)
    | none =>
      if status = 200 then
        match jsonParse strData with
        | none => PostOutcome.rejected (malformedErr target strData)
        | some Json.null => PostOutcome.rejected (malformedErr target strData)
        | some j => PostOutcome.resolved (requestField j)
      else
        match jsonParse strData with
        | some (Json.obj fields) =>
          match jsLookup fields "errors" with
          | some (Json.arr xs) =>
            PostOutcome.rejected
              (targetError target ("HTTP " ++ toString status ++ ": " ++ jsArrayJoin " " xs))
          | _ => PostOutcome.hung
        | _ => PostOutcome.hung

/-- Invocation of the callback for one `TransportResult`: a transport
error arrives as `cb(err)` (no response, no data); a response arrives as
`cb(null, res, data)`. -/
def postCallbackOf (target : String) (tr : TransportResult) : PostOutcome :=
  match tr with
  | TransportResult.transportError e => postApiCallback target (some e) 0 none
  | TransportResult.response status body => postApiCallback target none status (some body)

/-- `[postToApi](target, message, title, device)` as a whole, for a given
transport result.  The `NO_POST` simulation branch is compiled out: it is
only taken when the `PO_SIMULATE` environment variable is set, which the
specification scopes out as a test collaborator. -/
def postToApi (appToken : Option String) (target message : String)
    (title device : Option String) (tr : TransportResult) : PostOutcome :=
  match preparePost appToken target message title device with
  | Except.error e => PostOutcome.rejected e
  | Except.ok _ => postCallbackOf target tr

/-- JavaScript truthiness test `! this.appToken` for the optional
credential field: unset or empty means falsy. -/
def jsFalsyOpt : Option String → Bool
  | none => true
  | some s => s == ""

/-- `lob(userToken, message, title, device)`: the three validation throws
(which reject the returned promise of the `async` method), then
delegation to `[postToApi]`. -/
def lob (appToken : Option String) (userToken message : String)
    (title device : Option String) (tr : TransportResult) : PostOutcome :=
  if jsFalsyOpt appToken then PostOutcome.rejected (jsError "No application token!")
  else if userToken == "" then PostOutcome.rejected (jsError "No user token provided!")
  else if message == "" then PostOutcome.rejected (jsError "No message!")
  else postToApi appToken userToken message title device tr

/-- The promise `lobToAll` pushes for recipient index `k`: `[postToApi]`
with the recipient's token, the shared message and title, and no device
(`lobToAll` never forwards a device). -/
def lobOutcome (appToken : Option String) (userTokens : List String) (message : String)
    (title : Option String) (trs : List TransportResult) (k : Nat) : PostOutcome :=
  postToApi appToken (userTokens.getD k "") message title none
    (trs.getD k (TransportResult.response 0 ""))

/-- JavaScript `ret == null`: loose equality with `null` holds exactly for
`null` and `undefined`. -/
def jsNullish : JsVal → Bool
  | JsVal.undef => true
  | JsVal.ofJson Json.null => true
  | _ => false

/-- The scan in `allPromisesSettled` keeps waiting while some
`results[j] == null`: a slot passes the scan when it has been written
with a non-nullish value.  A hole of `new Array(n)` reads as `undefined`,
hence `none` fails the scan too. -/
def slotFilled : Option JsVal → Bool
  | none => false
  | some v => !(jsNullish v)

/-- State of one `allPromisesSettled` call: the `results` array (a slot is
`none` while unwritten), the settled value of the aggregate promise
(`none` while pending; a promise resolves at most once, so the first `ok`
value is kept), and how many times `ok` has been invoked. -/
structure AggState where
  results : List (Option JsVal)
  resolved : Option (List JsVal)
  okCalls : Nat

/-- One run of `fillAndCheck(i)(ret)` from the source: write the slot,
scan every slot, and call `ok(results)` when no slot is nullish.  Calling
`ok` on an already-settled promise leaves its value unchanged. -/
def fillAndCheck (st : AggState) (ev : Nat × JsVal) : AggState :=
  if (st.results.set ev.1 (some ev.2)).all slotFilled then
    { results := st.results.set ev.1 (some ev.2)
      resolved := some (st.resolved.getD
        ((st.results.set ev.1 (some ev.2)).map (fun s => s.getD JsVal.undef)))
      okCalls := st.okCalls + 1 }
  else
    { results := st.results.set ev.1 (some ev.2)
      resolved := st.resolved
      okCalls := st.okCalls }

/-- `allPromisesSettled(promiseList)` for a list of `n` promises, driven
by the settlement events that actually occur: `events` lists, in arrival
order, the index of each promise that settles together with the value its
`fillAndCheck` handler receives.  A promise settles at most once and the
handler runs for fulfilments and rejections alike; a promise that never
settles simply contributes no event.  The returned state is the state
after all settlements have been processed: `resolved = none` means the
aggregate promise is still pending then — it hangs forever. -/
def allPromisesSettled (n : Nat) (events : List (Nat × JsVal)) : AggState :=
  events.foldl fillAndCheck ⟨List.replicate n none, none, 0⟩

/-- The value `fillAndCheck` receives when a given `postToApi` promise
settles: the resolution value, or the rejection error; `none` for a
promise that never settles. -/
def settleVal : PostOutcome → Option JsVal
  | PostOutcome.resolved v => some v
  | PostOutcome.rejected e => some (JsVal.jerr e)
  | PostOutcome.hung => none

/-- A submission that settles, with a value the aggregator's scan accepts
(not `null`/`undefined`). -/
def settledNonNull (o : PostOutcome) : Bool :=
  match settleVal o with
  | some v => !(jsNullish v)
  | none => false

/-- `lobToAll(userTokens, message, title)`: one `[postToApi]` promise per
recipient (no device), aggregated by `allPromisesSettled`.  `order` lists
the recipient indices in the order in which their submissions settle;
submissions that never settle produce no event. -/
def lobToAll (appToken : Option String) (userTokens : List String) (message : String)
    (title : Option String) (trs : List TransportResult) (order : List Nat) : AggState :=
  allPromisesSettled userTokens.length
    (order.filterMap (fun k =>
      (settleVal (lobOutcome appToken userTokens message title trs k)).map (fun v => (k, v))))

theorem aggStep_results (st : AggState) (ev : Nat × JsVal) :
    (fillAndCheck st ev).results = st.results.set ev.1 (some ev.2) := by
  unfold fillAndCheck; split <;> rfl

theorem aggStep_pos (st : AggState) (ev : Nat × JsVal)
    (h : (st.results.set ev.1 (some ev.2)).all slotFilled = true) :
    (fillAndCheck st ev).resolved
        = some (st.resolved.getD
            ((st.results.set ev.1 (some ev.2)).map (fun s => s.getD JsVal.undef)))
      ∧ (fillAndCheck st ev).okCalls = st.okCalls + 1 := by
  unfold fillAndCheck; rw [if_pos h]; exact ⟨rfl, rfl⟩

theorem aggStep_neg (st : AggState) (ev : Nat × JsVal)
    (h : ¬ (st.results.set ev.1 (some ev.2)).all slotFilled = true) :
    (fillAndCheck st ev).resolved = st.resolved
      ∧ (fillAndCheck st ev).okCalls = st.okCalls := by
  unfold fillAndCheck; rw [if_neg h]; exact ⟨rfl, rfl⟩

theorem aggRun_length (E : List (Nat × JsVal)) : ∀ st : AggState,
    (E.foldl fillAndCheck st).results.length = st.results.length := by
  induction E with
  | nil => intro st; rfl
  | cons ev tl ih =>
    intro st
    rw [List.foldl_cons, ih, aggStep_results, List.length_set]

theorem aggRun_untouched (E : List (Nat × JsVal)) : ∀ (st : AggState) (k : Nat),
    k ∉ E.map Prod.fst →
    ((E.foldl fillAndCheck st).results)[k]? = st.results[k]? := by
  induction E with
  | nil => intro st k _; rfl
  | cons ev tl ih =>
    intro st k hk
    rw [List.map_cons, List.mem_cons] at hk
    push_neg at hk
    rw [List.foldl_cons, ih _ _ hk.2, aggStep_results,
      List.getElem?_set_ne (fun h => hk.1 h.symm)]

theorem aggRun_getElem (E : List (Nat × JsVal)) : ∀ (st : AggState) (k : Nat) (v : JsVal),
    (E.map Prod.fst).Nodup → (k, v) ∈ E → k < st.results.length →
    ((E.foldl fillAndCheck st).results)[k]? = some (some v) := by
  induction E with
  | nil => intro st k v _ h; cases h
  | cons ev tl ih =>
    intro st k v hnd hkv hk
    rw [List.map_cons, List.nodup_cons] at hnd
    rw [List.foldl_cons]
    rcases List.mem_cons.mp hkv with heq | htl
    · have hk1 : ev.1 = k := by rw [← heq]
      have hk2 : ev.2 = v := by rw [← heq]
      have hnotin : k ∉ tl.map Prod.fst := hk1 ▸ hnd.1
      rw [aggRun_untouched tl _ k hnotin, aggStep_results, hk1, hk2,
        List.getElem?_set_self hk]
    · exact ih _ k v hnd.2 htl (by rw [aggStep_results, List.length_set]; exact hk)

theorem aggRun_resolved_requires (E : List (Nat × JsVal)) : ∀ st : AggState,
    st.resolved = none →
    ((E.foldl fillAndCheck st).resolved).isSome = true →
    ∀ i : Nat, st.results[i]? = some none → i ∈ E.map Prod.fst := by
  induction E with
  | nil => intro st h0 hs; rw [List.foldl_nil, h0] at hs; cases hs
  | cons ev tl ih =>
    intro st h0 hs i hi
    rw [List.foldl_cons] at hs
    by_cases hall : (st.results.set ev.1 (some ev.2)).all slotFilled = true
    · by_cases hik : i = ev.1
      · rw [List.map_cons, hik]; exact List.mem_cons_self _ _
      · exfalso
        have h2 : (st.results.set ev.1 (some ev.2))[i]? = some none := by
          rw [List.getElem?_set_ne (fun h => hik h.symm)]; exact hi
        have hmem : (none : Option JsVal) ∈ st.results.set ev.1 (some ev.2) :=
          List.mem_iff_getElem?.mpr ⟨i, h2⟩
        have := List.all_eq_true.mp hall _ hmem
        simp [slotFilled] at this
    · by_cases hik : i = ev.1
      · rw [List.map_cons, hik]; exact List.mem_cons_self _ _
      · have h0' : (fillAndCheck st ev).resolved = none := by
          rw [(aggStep_neg st ev hall).1]; exact h0
        have hi' : (fillAndCheck st ev).results[i]? = some none := by
          rw [aggStep_results, List.getElem?_set_ne (fun h => hik h.symm)]; exact hi
        rw [List.map_cons]
        exact List.mem_cons_of_mem _ (ih _ h0' hs i hi')

theorem aggRun_okCalls_le (E : List (Nat × JsVal)) : ∀ st : AggState,
    (∀ ev ∈ E, st.results[ev.1]? = some none) → (E.map Prod.fst).Nodup →
    (E.foldl fillAndCheck st).okCalls ≤ st.okCalls + 1 := by
  induction E with
  | nil => intro st _ _; exact Nat.le_succ _
  | cons ev tl ih =>
    intro st hfresh hnd
    rw [List.map_cons, List.nodup_cons] at hnd
    rw [List.foldl_cons]
    by_cases hall : (st.results.set ev.1 (some ev.2)).all slotFilled = true
    · cases tl with
      | nil =>
        rw [List.foldl_nil, (aggStep_pos st ev hall).2]
      | cons ev' tl' =>
        exfalso
        have hne : ev'.1 ≠ ev.1 := by
          intro h
          exact hnd.1 (h ▸ List.mem_map_of_mem Prod.fst (List.mem_cons_self ev' tl'))
        have h2 : (st.results.set ev.1 (some ev.2))[ev'.1]? = some none := by
          rw [List.getElem?_set_ne (fun h => hne h.symm)]
          exact hfresh ev' (List.mem_cons_of_mem _ (List.mem_cons_self _ _))
        have hmem : (none : Option JsVal) ∈ st.results.set ev.1 (some ev.2) :=
          List.mem_iff_getElem?.mpr ⟨ev'.1, h2⟩
        have := List.all_eq_true.mp hall _ hmem
        simp [slotFilled] at this
    · have hfresh' : ∀ ev' ∈ tl, (fillAndCheck st ev).results[ev'.1]? = some none := by
        intro ev' hev'
        have hne : ev'.1 ≠ ev.1 := by
          intro h
          exact hnd.1 (h ▸ List.mem_map_of_mem Prod.fst hev')
        rw [aggStep_results, List.getElem?_set_ne (fun h => hne h.symm)]
        exact hfresh ev' (List.mem_cons_of_mem _ hev')
      have := ih (fillAndCheck st ev) hfresh' hnd.2
      rw [(aggStep_neg st ev hall).2] at this
      exact this

theorem aggRun_okCalls_mono (E : List (Nat × JsVal)) : ∀ st : AggState,
    st.okCalls ≤ (E.foldl fillAndCheck st).okCalls := by
  induction E with
  | nil => intro st; exact Nat.le_refl _
  | cons ev tl ih =>
    intro st
    rw [List.foldl_cons]
    refine Nat.le_trans ?_ (ih (fillAndCheck st ev))
    unfold fillAndCheck
    split
    · exact Nat.le_succ _
    · exact Nat.le_refl _

theorem aggRun_okCalls_pos (E : List (Nat × JsVal)) : ∀ st : AggState,
    st.resolved = none →
    ((E.foldl fillAndCheck st).resolved).isSome = true →
    st.okCalls < (E.foldl fillAndCheck st).okCalls := by
  induction E with
  | nil => intro st h0 hs; rw [List.foldl_nil, h0] at hs; cases hs
  | cons ev tl ih =>
    intro st h0 hs
    rw [List.foldl_cons] at hs ⊢
    by_cases hall : (st.results.set ev.1 (some ev.2)).all slotFilled = true
    · have h1 := (aggStep_pos st ev hall).2
      have h2 := aggRun_okCalls_mono tl (fillAndCheck st ev)
      omega
    · have h0' : (fillAndCheck st ev).resolved = none := by
        rw [(aggStep_neg st ev hall).1]; exact h0
      have := ih (fillAndCheck st ev) h0' hs
      rw [(aggStep_neg st ev hall).2] at this
      exact this

theorem aggRun_resolves_at_end (E : List (Nat × JsVal)) : ∀ st : AggState,
    E ≠ [] → st.resolved = none →
    (∀ ev ∈ E, st.results[ev.1]? = some none) → (E.map Prod.fst).Nodup →
    (E.foldl fillAndCheck st).results.all slotFilled = true →
    (E.foldl fillAndCheck st).resolved
      = some ((E.foldl fillAndCheck st).results.map (fun s => s.getD JsVal.undef)) := by
  induction E with
  | nil => intro st h; exact absurd rfl h
  | cons ev tl ih =>
    intro st _ h0 hfresh hnd hall
    rw [List.map_cons, List.nodup_cons] at hnd
    rw [List.foldl_cons] at hall ⊢
    cases tl with
    | nil =>
      rw [List.foldl_nil] at hall ⊢
      have hall2 : (st.results.set ev.1 (some ev.2)).all slotFilled = true := by
        rw [aggStep_results] at hall; exact hall
      rw [(aggStep_pos st ev hall2).1, h0, Option.getD_none, aggStep_results]
    | cons ev' tl' =>
      have hne : ev'.1 ≠ ev.1 := by
        intro h
        exact hnd.1 (h ▸ List.mem_map_of_mem Prod.fst (List.mem_cons_self ev' tl'))
      have hallfail : ¬ (st.results.set ev.1 (some ev.2)).all slotFilled = true := by
        intro h
        have h2 : (st.results.set ev.1 (some ev.2))[ev'.1]? = some none := by
          rw [List.getElem?_set_ne (fun hh => hne hh.symm)]
          exact hfresh ev' (List.mem_cons_of_mem _ (List.mem_cons_self _ _))
        have hmem : (none : Option JsVal) ∈ st.results.set ev.1 (some ev.2) :=
          List.mem_iff_getElem?.mpr ⟨ev'.1, h2⟩
        have := List.all_eq_true.mp h _ hmem
        simp [slotFilled] at this
      have h0' : (fillAndCheck st ev).resolved = none := by
        rw [(aggStep_neg st ev hallfail).1]; exact h0
      have hfresh' : ∀ e ∈ ev' :: tl', (fillAndCheck st ev).results[e.1]? = some none := by
        intro e he
        have hne2 : e.1 ≠ ev.1 := by
          intro h
          exact hnd.1 (h ▸ List.mem_map_of_mem Prod.fst he)
        rw [aggStep_results, List.getElem?_set_ne (fun h => hne2 h.symm)]
        exact hfresh e (List.mem_cons_of_mem _ he)
      exact ih (fillAndCheck st ev) (List.cons_ne_nil _ _) h0' hfresh' hnd.2 hall

theorem aggRun_nullish_never (E : List (Nat × JsVal)) : ∀ (st : AggState) (k : Nat),
    st.resolved = none → k < st.results.length →
    (∀ s, st.results[k]? = some s → slotFilled s = false) →
    (∀ v : JsVal, (k, v) ∈ E → jsNullish v = true) →
    (E.foldl fillAndCheck st).resolved = none := by
  induction E with
  | nil => intro st k h0 _ _ _; exact h0
  | cons ev tl ih =>
    intro st k h0 hk hslot hnull
    rw [List.foldl_cons]
    have hk2 : k < (st.results.set ev.1 (some ev.2)).length := by
      rw [List.length_set]; exact hk
    have hslot2 : ∀ s, (st.results.set ev.1 (some ev.2))[k]? = some s → slotFilled s = false := by
      intro s hs
      by_cases hek : ev.1 = k
      · have : (st.results.set ev.1 (some ev.2))[k]? = some (some ev.2) := by
          rw [← hek] at hk ⊢
          exact List.getElem?_set_self hk
        rw [this] at hs
        cases hs
        have hv : jsNullish ev.2 = true := by
          apply hnull ev.2
          have : ev = (k, ev.2) := by
            rw [← hek]
          rw [← this]
          exact List.mem_cons_self _ _
        simp [slotFilled, hv]
      · rw [List.getElem?_set_ne hek] at hs
        exact hslot s hs
    have hallfail : ¬ (st.results.set ev.1 (some ev.2)).all slotFilled = true := by
      intro h
      have hgot : ∃ s, (st.results.set ev.1 (some ev.2))[k]? = some s :=
        ⟨_, List.getElem?_eq_getElem hk2⟩
      rcases hgot with ⟨s, hs⟩
      have hmem : s ∈ st.results.set ev.1 (some ev.2) := List.mem_iff_getElem?.mpr ⟨k, hs⟩
      have := List.all_eq_true.mp h _ hmem
      rw [hslot2 s hs] at this
      cases this
    have h0' : (fillAndCheck st ev).resolved = none := by
      rw [(aggStep_neg st ev hallfail).1]; exact h0
    have hk' : k < (fillAndCheck st ev).results.length := by
      rw [aggStep_results]; exact hk2
    have hslot' : ∀ s, (fillAndCheck st ev).results[k]? = some s → slotFilled s = false := by
      intro s hs
      rw [aggStep_results] at hs
      exact hslot2 s hs
    exact ih (fillAndCheck st ev) k h0' hk' hslot'
      (fun v hv => hnull v (List.mem_cons_of_mem _ hv))

theorem aggRun_perm_resolves (n : Nat) (E : List (Nat × JsVal))
    (hn : 0 < n)
    (hperm : (E.map Prod.fst).Perm (List.range n))
    (hfill : ∀ ev ∈ E, jsNullish ev.2 = false) :
    ∃ r, (allPromisesSettled n E).resolved = some r ∧ r.length = n
      ∧ ∀ k v, (k, v) ∈ E → r[k]? = some v := by
  have hnd : (E.map Prod.fst).Nodup := hperm.nodup_iff.mpr (List.nodup_range n)
  have hlt : ∀ ev ∈ E, ev.1 < n := by
    intro ev hev
    have : ev.1 ∈ E.map Prod.fst := List.mem_map_of_mem Prod.fst hev
    exact List.mem_range.mp (hperm.mem_iff.mp this)
  have hEne : E ≠ [] := by
    intro h
    subst h
    have := hperm.length_eq
    rw [List.length_range] at this
    simp at this
    omega
  have hfresh : ∀ ev ∈ E,
      ((⟨List.replicate n none, none, 0⟩ : AggState).results)[ev.1]? = some none := by
    intro ev hev
    exact List.getElem?_replicate_of_lt (hlt ev hev)
  have hlen : (allPromisesSettled n E).results.length = n := by
    unfold allPromisesSettled
    rw [aggRun_length]
    exact List.length_replicate n none
  have hvals : ∀ k v, (k, v) ∈ E →
      ((allPromisesSettled n E).results)[k]? = some (some v) := by
    intro k v hkv
    unfold allPromisesSettled
    apply aggRun_getElem E _ k v hnd hkv
    rw [List.length_replicate]
    exact hlt (k, v) hkv
  have hall : (allPromisesSettled n E).results.all slotFilled = true := by
    apply List.all_eq_true.mpr
    intro x hx
    rcases List.mem_iff_getElem?.mp hx with ⟨i, hi⟩
    have hilt : i < n := by
      rcases List.getElem?_eq_some.mp hi with ⟨h, _⟩
      rw [hlen] at h
      exact h
    have : i ∈ E.map Prod.fst := hperm.mem_iff.mpr (List.mem_range.mpr hilt)
    rcases List.mem_map.mp this with ⟨ev, hev, hev1⟩
    have hx2 : ((allPromisesSettled n E).results)[i]? = some (some ev.2) := by
      apply hvals i ev.2
      rw [← hev1]
      exact hev
    rw [hi] at hx2
    cases hx2
    simp [slotFilled, hfill ev hev]
  have hres : (allPromisesSettled n E).resolved
      = some ((allPromisesSettled n E).results.map (fun s => s.getD JsVal.undef)) := by
    unfold allPromisesSettled at hall ⊢
    exact aggRun_resolves_at_end E _ hEne rfl hfresh hnd hall
  refine ⟨_, hres, ?_, ?_⟩
  · rw [List.length_map]
    exact hlen
  · intro k v hkv
    rw [List.getElem?_map, hvals k v hkv]
    rfl

theorem filterMap_eq_map_of_forall {α β : Type} (l : List α) (f : α → Option β) (g : α → β)
    (h : ∀ x ∈ l, f x = some (g x)) : l.filterMap f = l.map g := by
  induction l with
  | nil => rfl
  | cons x xs ih =>
    rw [List.filterMap_cons, h x (List.mem_cons_self x xs), List.map_cons,
      ih (fun y hy => h y (List.mem_cons_of_mem _ hy))]

theorem settleVal_of_settledNonNull (o : PostOutcome) (h : settledNonNull o = true) :
    settleVal o = some ((settleVal o).getD JsVal.undef)
      ∧ jsNullish ((settleVal o).getD JsVal.undef) = false := by
  unfold settledNonNull at h
  cases hv : settleVal o with
  | none => rw [hv] at h; cases h
  | some v =>
    rw [hv] at h
    simp only [Bool.not_eq_true'] at h
    exact ⟨rfl, h⟩

theorem jsArrayJoin_strs (sep : String) (es : List String) :
    jsArrayJoin sep (es.map Json.str) = String.intercalate sep es := by
  unfold jsArrayJoin
  rw [List.map_map]
  have : (jsElemStr ∘ Json.str) = id := by
    funext s
    rfl
  rw [this, List.map_id]

/-- C2: the claim says `lobToAll`/`sendMany` on the empty recipient list
resolves immediately with an empty outcome list.  The code violates this:
with zero promises no `fillAndCheck` handler ever runs, and `ok` is only
ever called from a handler, so the aggregate promise of
`allPromisesSettled([])` stays pending forever — it never resolves at
all, with an empty results array and zero `ok` calls. -/
theorem allPromisesSettled_empty_never_resolves :
    (allPromisesSettled 0 []).resolved = none
      ∧ (allPromisesSettled 0 []).okCalls = 0
      ∧ (lobToAll (some "app") [] "hi" none [] []).resolved = none :=
  ⟨rfl, rfl, rfl⟩

/-- C4: the claim says `title` and `device` are each included exactly when
provided as a non-empty string, with `device`'s presence depending only on
`device`.  The code's device condition tests `title.length` (a copy-paste
slip), so: with `title = ""` and `device = "iphone"` the device parameter
is dropped although `device` is non-empty, and with `title` absent and
`device = "iphone"` evaluating `title.length` throws a `TypeError`. -/
theorem generateUrl_device_depends_on_title :
    urlParams (some "app") "u1" "hi" (some "") (some "iphone")
        = Except.ok [("token", "app"), ("user", "u1"), ("message", "hi")]
      ∧ urlParams (some "app") "u1" "hi" none (some "iphone")
        = Except.error titleLengthTypeError
      ∧ urlParams (some "app") "u1" "hi" (some "T") (some "")
        = Except.ok [("token", "app"), ("user", "u1"), ("message", "hi"),
            ("title", "T"), ("device", "")] :=
  ⟨rfl, rfl, rfl⟩

/-- C5: the claim says a transport-level error is propagated to the caller
tagged with the recipient.  In the code the callback evaluates
`data.toString('utf8')` before the `if (err)` check; a transport error
arrives without response data, so that line throws inside the transport
callback and the promise never settles — the error is neither propagated
nor tagged (and the unreachable `reject(err)` path would not tag it
either). -/
theorem postToApi_transport_error_never_settles :
    postToApi (some "app") "u1" "hi" none none
        (TransportResult.transportError "connect ECONNREFUSED")
      = PostOutcome.hung
      ∧ postApiCallback "u1" (some "connect ECONNREFUSED") 0 none = PostOutcome.hung :=
  ⟨rfl, rfl⟩

/-- C7: for every response with a non-200 status whose body is JSON with
an `errors` array of strings, the submission rejects with the error
message `HTTP <status>: ` followed by the errors joined with single
spaces, tagged with the recipient. -/
theorem postToApi_non200_error_message (a : Option String) (target msg : String)
    (title device : Option String) (status : Nat) (body : String) (es : List String)
    (fields : List (String × Json))
    (hok : ∃ u, preparePost a target msg title device = Except.ok u)
    (hst : status ≠ 200)
    (hparse : jsonParse body = some (Json.obj fields))
    (herrs : jsLookup fields "errors" = some (Json.arr (es.map Json.str))) :
    postToApi a target msg title device (TransportResult.response status body)
      = PostOutcome.rejected (targetError target
          ("HTTP " ++ toString status ++ ": " ++ String.intercalate " " es)) := by
  rcases hok with ⟨u, hu⟩
  simp only [postToApi, hu, postCallbackOf, postApiCallback]
  rw [if_neg hst, hparse]
  dsimp only
  rw [herrs]
  dsimp only
  rw [jsArrayJoin_strs]

/-- C7 witness: the scenario `{status:500, body:{"errors":["invalid
token","user inactive"]}}` produces exactly the failure message
`HTTP 500: invalid token user inactive`. -/
theorem postToApi_non200_error_message_witness :
    postToApi (some "app") "u1" "hi" none none
        (TransportResult.response 500 "\x7b\"errors\":[\"invalid token\",\"user inactive\"]\x7d")
      = PostOutcome.rejected (targetError "u1" "HTTP 500: invalid token user inactive") :=
  postToApi_non200_error_message (some "app") "u1" "hi" none none 500
    "\x7b\"errors\":[\"invalid token\",\"user inactive\"]\x7d"
    ["invalid token", "user inactive"]
    [("errors", Json.arr [Json.str "invalid token", Json.str "user inactive"])]
    ⟨"https://api.pushover.net/1/messages.json?token=app&user=u1&message=hi", rfl⟩
    (by decide) rfl rfl

/-- C8 (amended): on a 200 response whose body parses as JSON to a
non-`null` value, the submission resolves with the value of the body's
`request` field (`undefined` when absent); on a 200 response whose body
fails to parse as JSON, it rejects with the malformed-response error,
tagged with the recipient and including the raw response text.  (The body
`"null"`, though valid JSON, also takes the malformed-response path —
see the counterexample.) -/
theorem postToApi_200_request_field (a : Option String) (target msg : String)
    (title device : Option String) (body : String)
    (hok : ∃ u, preparePost a target msg title device = Except.ok u) :
    (∀ j, jsonParse body = some j → j ≠ Json.null →
        postToApi a target msg title device (TransportResult.response 200 body)
          = PostOutcome.resolved (requestField j))
      ∧ (jsonParse body = none →
        postToApi a target msg title device (TransportResult.response 200 body)
          = PostOutcome.rejected (malformedErr target body)) := by
  rcases hok with ⟨u, hu⟩
  constructor
  · intro j hj hjn
    simp only [postToApi, hu, postCallbackOf, postApiCallback, if_pos rfl]
    rw [hj]
    cases j with
    | null => exact absurd rfl hjn
    | bool b => rfl
    | num s => rfl
    | str s => rfl
    | arr xs => rfl
    | obj fields => rfl
  · intro hj
    simp only [postToApi, hu, postCallbackOf, postApiCallback, if_pos rfl]
    rw [hj]
    simp

/-- C8 counterexample: the body `"null"` parses as JSON (`JSON.parse`
yields `null`), yet the submission does not resolve with a `request`
field value — `null.request` throws inside the `try` block and the code
rejects with the malformed-response error. -/
theorem postToApi_200_null_body_rejects :
    jsonParse "null" = some Json.null
      ∧ postToApi (some "app") "u1" "hi" none none (TransportResult.response 200 "null")
        = PostOutcome.rejected (targetError "u1" "Response from pushover.net is malformed? null") :=
  ⟨rfl, rfl⟩

/-- C8 witness: the round-trip scenario — a mock transport returning
status 200 with body `{"request":"abc-123"}` makes the submission resolve
with exactly `"abc-123"`. -/
theorem postToApi_200_request_field_witness :
    postToApi (some "app") "u1" "hi" none none
        (TransportResult.response 200 "\x7b\"request\":\"abc-123\"\x7d")
      = PostOutcome.resolved (JsVal.ofJson (Json.str "abc-123")) :=
  (postToApi_200_request_field (some "app") "u1" "hi" none none
      "\x7b\"request\":\"abc-123\"\x7d"
      ⟨"https://api.pushover.net/1/messages.json?token=app&user=u1&message=hi", rfl⟩).1
    (Json.obj [("request", Json.str "abc-123")]) rfl (fun h => Json.noConfusion h)

/-- C9: `lob` validates in order — falsy credential rejects with the
"no application token" error; otherwise an empty recipient rejects with
the "no user token" error; otherwise an empty message rejects with the
"no message" error; each result is the same for every transport result,
i.e. the rejection happens before any network I/O; and on valid input
`lob` is exactly the delegation to `[postToApi]`, raising none of the
validation errors. -/
theorem lob_validation_order (a : Option String) (u msg : String)
    (title device : Option String) :
    (jsFalsyOpt a = true → ∀ tr, lob a u msg title device tr
        = PostOutcome.rejected (jsError "No application token!"))
      ∧ (jsFalsyOpt a = false → u = "" → ∀ tr, lob a u msg title device tr
        = PostOutcome.rejected (jsError "No user token provided!"))
      ∧ (jsFalsyOpt a = false → u ≠ "" → msg = "" → ∀ tr, lob a u msg title device tr
        = PostOutcome.rejected (jsError "No message!"))
      ∧ (jsFalsyOpt a = false → u ≠ "" → msg ≠ "" → ∀ tr, lob a u msg title device tr
        = postToApi a u msg title device tr) := by
  refine ⟨?_, ?_, ?_, ?_⟩
  · intro ha tr
    simp [lob, ha]
  · intro ha hu tr
    simp [lob, ha, hu]
  · intro ha hu hm tr
    simp [lob, ha, hu, hm]
  · intro ha hu hm tr
    simp [lob, ha, hu, hm]

/-- C9 witness: `sendOne("", "hi")` — an empty recipient with a valid
credential — rejects with the "no user token" error, for an arbitrary
transport result (no network call can influence it). -/
theorem lob_validation_order_witness :
    lob (some "app") "" "hi" none none (TransportResult.response 200 "\x7b\x7d")
      = PostOutcome.rejected (jsError "No user token provided!") :=
  (lob_validation_order (some "app") "" "hi" none none).2.1 rfl rfl
    (TransportResult.response 200 "\x7b\x7d")

/-- C6: for every message longer than 1024 characters, `lob` (with a valid
credential and recipient) rejects with the "message too long" error tagged
with the recipient, and every recipient of `lobToAll` gets the same tagged
rejection — in each case the outcome is identical for every transport
result and `preparePost` already returns the error, i.e. the oversized
request never reaches the transport layer. -/
theorem lob_too_long_no_io (a : Option String) (u msg : String)
    (title device : Option String)
    (ha : jsFalsyOpt a = false) (hu : u ≠ "") (hlen : 1024 < msg.length) :
    preparePost a u msg title device = Except.error (targetError u "Message is too long")
      ∧ (∀ tr, lob a u msg title device tr
          = PostOutcome.rejected (targetError u "Message is too long"))
      ∧ (∀ (tokens : List String) (trs : List TransportResult) (k : Nat),
          lobOutcome a tokens msg title trs k
            = PostOutcome.rejected (targetError (tokens.getD k "") "Message is too long")) := by
  have hprep : ∀ (t : String) (d : Option String),
      preparePost a t msg title d = Except.error (targetError t "Message is too long") := by
    intro t d
    unfold preparePost
    rw [if_pos hlen]
  have hmsg : msg ≠ "" := by
    intro h
    rw [h] at hlen
    simp at hlen
  refine ⟨hprep u device, ?_, ?_⟩
  · intro tr
    simp only [lob, ha, Bool.false_eq_true, if_false, beq_iff_eq, hu, hmsg, if_neg,
      postToApi, hprep u device]
  · intro tokens trs k
    simp only [lobOutcome, postToApi, hprep (tokens.getD k "") none]

/-- C6 witness: a 1025-character message is rejected as too long, with the
recipient tag, under a concrete transport result (which cannot influence
the outcome). -/
theorem lob_too_long_no_io_witness :
    1024 < (String.mk (List.replicate 1025 'a')).length
      ∧ lob (some "app") "u1" (String.mk (List.replicate 1025 'a')) none none
          (TransportResult.response 200 "\x7b\x7d")
        = PostOutcome.rejected (targetError "u1" "Message is too long") := by
  have hlen : 1024 < (String.mk (List.replicate 1025 'a')).length := by
    have h1 : (String.mk (List.replicate 1025 'a')).length
        = (List.replicate 1025 'a').length := rfl
    rw [h1, List.length_replicate]
    omega
  exact ⟨hlen,
    (lob_too_long_no_io (some "app") "u1" _ none none rfl (by decide) hlen).2.1
      (TransportResult.response 200 "\x7b\x7d")⟩

/-- C1: when every recipient's submission settles with a value the scan
accepts — each either rejects (an `Error`, e.g. one recipient failing) or
resolves with a message-id string — `lobToAll` resolves with exactly one
outcome per recipient, index-aligned: slot `k` holds exactly recipient
`k`'s own settlement value (`JsVal.jerr e` if recipient `k` rejected with
`e`, the resolution value otherwise), whatever the arrival order of the
settlements.  One recipient's failure thus neither prevents nor alters
any other recipient's outcome. -/
theorem lobToAll_index_aligned (a : Option String) (tokens : List String) (msg : String)
    (title : Option String) (trs : List TransportResult) (order : List Nat)
    (hne : tokens ≠ [])
    (hperm : order.Perm (List.range tokens.length))
    (hset : ∀ k, k < tokens.length →
      settledNonNull (lobOutcome a tokens msg title trs k) = true) :
    ∃ r, (lobToAll a tokens msg title trs order).resolved = some r
      ∧ r.length = tokens.length
      ∧ ∀ k, k < tokens.length →
          settleVal (lobOutcome a tokens msg title trs k) = some (r.getD k JsVal.undef) := by
  have hn : 0 < tokens.length := List.length_pos.mpr hne
  have hmemlt : ∀ k ∈ order, k < tokens.length := by
    intro k hk
    exact List.mem_range.mp (hperm.mem_iff.mp hk)
  have hev : ∀ k ∈ order,
      (settleVal (lobOutcome a tokens msg title trs k)).map (fun v => (k, v))
        = some (k, (settleVal (lobOutcome a tokens msg title trs k)).getD JsVal.undef) := by
    intro k hk
    have h := settleVal_of_settledNonNull _ (hset k (hmemlt k hk))
    rw [h.1]
    rfl
  have hE : (order.filterMap (fun k =>
        (settleVal (lobOutcome a tokens msg title trs k)).map (fun v => (k, v))))
      = order.map (fun k => (k, (settleVal (lobOutcome a tokens msg title trs k)).getD JsVal.undef)) :=
    filterMap_eq_map_of_forall _ _ _ hev
  have hfst : (order.map (fun k =>
        (k, (settleVal (lobOutcome a tokens msg title trs k)).getD JsVal.undef))).map Prod.fst
      = order := by
    rw [List.map_map]
    exact List.map_id order
  have hfill : ∀ ev ∈ order.map (fun k =>
        (k, (settleVal (lobOutcome a tokens msg title trs k)).getD JsVal.undef)),
      jsNullish ev.2 = false := by
    intro ev hevm
    rcases List.mem_map.mp hevm with ⟨k, hk, hkev⟩
    rw [← hkev]
    exact (settleVal_of_settledNonNull _ (hset k (hmemlt k hk))).2
  have hres := aggRun_perm_resolves tokens.length
    (order.map (fun k => (k, (settleVal (lobOutcome a tokens msg title trs k)).getD JsVal.undef)))
    hn (by rw [hfst]; exact hperm) hfill
  rcases hres with ⟨r, hr, hrlen, hrvals⟩
  refine ⟨r, ?_, hrlen, ?_⟩
  · unfold lobToAll
    rw [hE]
    exact hr
  · intro k hk
    have hkord : k ∈ order := hperm.mem_iff.mpr (List.mem_range.mpr hk)
    have hkE : (k, (settleVal (lobOutcome a tokens msg title trs k)).getD JsVal.undef)
        ∈ order.map (fun k =>
          (k, (settleVal (lobOutcome a tokens msg title trs k)).getD JsVal.undef)) :=
      List.mem_map_of_mem _ hkord
    have := hrvals k _ hkE
    rw [List.getD_eq_getElem?_getD, this, Option.getD_some]
    exact (settleVal_of_settledNonNull _ (hset k hk)).1

/-- C1 witness: two recipients, `u1` failing with HTTP 500 and `u2`
succeeding, settling in reverse order: the aggregate resolves with two
slots, each holding its own recipient's outcome. -/
theorem lobToAll_index_aligned_witness :
    ∃ r, (lobToAll (some "app") ["u1", "u2"] "hi" none
          [TransportResult.response 500 "\x7b\"errors\":[\"invalid token\"]\x7d",
            TransportResult.response 200 "\x7b\"request\":\"abc-123\"\x7d"] [1, 0]).resolved
        = some r
      ∧ r.length = (["u1", "u2"] : List String).length
      ∧ ∀ k, k < (["u1", "u2"] : List String).length →
          settleVal (lobOutcome (some "app") ["u1", "u2"] "hi" none
              [TransportResult.response 500 "\x7b\"errors\":[\"invalid token\"]\x7d",
                TransportResult.response 200 "\x7b\"request\":\"abc-123\"\x7d"] k)
            = some (r.getD k JsVal.undef) :=
  lobToAll_index_aligned (some "app") ["u1", "u2"] "hi" none
    [TransportResult.response 500 "\x7b\"errors\":[\"invalid token\"]\x7d",
      TransportResult.response 200 "\x7b\"request\":\"abc-123\"\x7d"] [1, 0]
    (by decide) (by decide) (by decide)

/-- C3 (amended): for a non-empty operation list in which each promise
settles at most once, the aggregate resolves at most once (`ok` effective
at most once), and only once every operation has settled; and when every
operation settles with a non-nullish outcome, it resolves exactly once.
(As stated the claim fails when an operation settles with a nullish
value: all operations have settled, yet the aggregate never resolves —
see the counterexample.) -/
theorem allPromisesSettled_once_safety (n : Nat) (E : List (Nat × JsVal))
    (hn : 0 < n) (hnd : (E.map Prod.fst).Nodup) (hlt : ∀ ev ∈ E, ev.1 < n) :
    (allPromisesSettled n E).okCalls ≤ 1
      ∧ (((allPromisesSettled n E).resolved).isSome = true →
          ∀ i, i < n → i ∈ E.map Prod.fst)
      ∧ ((E.map Prod.fst).Perm (List.range n) → (∀ ev ∈ E, jsNullish ev.2 = false) →
          ((allPromisesSettled n E).resolved).isSome = true
            ∧ (allPromisesSettled n E).okCalls = 1) := by
  have hfresh : ∀ ev ∈ E,
      ((⟨List.replicate n none, none, 0⟩ : AggState).results)[ev.1]? = some none :=
    fun ev hev => List.getElem?_replicate_of_lt (hlt ev hev)
  have hle := aggRun_okCalls_le E ⟨List.replicate n none, none, 0⟩ hfresh hnd
  have hz : (⟨List.replicate n none, none, 0⟩ : AggState).okCalls = 0 := rfl
  rw [hz] at hle
  refine ⟨?_, ?_, ?_⟩
  · unfold allPromisesSettled
    omega
  · intro hs i hi
    unfold allPromisesSettled at hs
    exact aggRun_resolved_requires E _ rfl hs i (List.getElem?_replicate_of_lt hi)
  · intro hperm hfill
    rcases aggRun_perm_resolves n E hn hperm hfill with ⟨r, hr, _, _⟩
    have hsm : ((allPromisesSettled n E).resolved).isSome = true := by
      rw [hr]; rfl
    refine ⟨hsm, ?_⟩
    have hpos := aggRun_okCalls_pos E ⟨List.replicate n none, none, 0⟩ rfl
      (by unfold allPromisesSettled at hsm; exact hsm)
    rw [hz] at hpos
    unfold allPromisesSettled
    omega

/-- C3 witness: two operations, one fulfilling with a string and one
rejecting with an error, in an order covering all indices: the aggregate
resolves, with exactly one effective `ok` call, and resolution implies
every index settled. -/
theorem allPromisesSettled_once_safety_witness :
    (allPromisesSettled 2 [(0, JsVal.ofJson (Json.str "a")),
          (1, JsVal.jerr (jsError "x"))]).okCalls ≤ 1
      ∧ (((allPromisesSettled 2 [(0, JsVal.ofJson (Json.str "a")),
            (1, JsVal.jerr (jsError "x"))]).resolved).isSome = true →
          ∀ i, i < 2 → i ∈ ([(0, JsVal.ofJson (Json.str "a")),
            (1, JsVal.jerr (jsError "x"))].map Prod.fst))
      ∧ (([(0, JsVal.ofJson (Json.str "a")),
            (1, JsVal.jerr (jsError "x"))].map Prod.fst).Perm (List.range 2) →
          (∀ ev ∈ [(0, JsVal.ofJson (Json.str "a")), (1, JsVal.jerr (jsError "x"))],
            jsNullish ev.2 = false) →
          (((allPromisesSettled 2 [(0, JsVal.ofJson (Json.str "a")),
              (1, JsVal.jerr (jsError "x"))]).resolved).isSome = true
            ∧ (allPromisesSettled 2 [(0, JsVal.ofJson (Json.str "a")),
                (1, JsVal.jerr (jsError "x"))]).okCalls = 1)) :=
  allPromisesSettled_once_safety 2
    [(0, JsVal.ofJson (Json.str "a")), (1, JsVal.jerr (jsError "x"))]
    (by decide) (by decide) (by decide)

/-- C3 counterexample: a single operation that settles (with value
`undefined`, as a promise may) — every operation has settled, the event
indices cover the whole range, yet the aggregate never resolves and `ok`
is never called, refuting "resolves exactly once after every operation
has settled". -/
theorem allPromisesSettled_not_exactly_once :
    [((0 : Nat), JsVal.undef)].map Prod.fst = List.range 1
      ∧ (allPromisesSettled 1 [(0, JsVal.undef)]).resolved = none
      ∧ (allPromisesSettled 1 [(0, JsVal.undef)]).okCalls = 0 :=
  ⟨rfl, rfl, rfl⟩

/-- C10 (amended): if slot `k`'s operation only ever settles with a
nullish value (`null` or `undefined`), the aggregate promise never
resolves — the slot-scan treats that slot as unfilled forever, no matter
which (or how many) operations settle.  Contrary to the claim's
parenthetical, the Dispatcher's own submissions can produce such an
outcome: a 200 response whose JSON body lacks a `request` field resolves
with `undefined`. -/
theorem allPromisesSettled_nullish_hangs (n : Nat) (E : List (Nat × JsVal)) (k : Nat)
    (hk : k < n) (hnull : ∀ v : JsVal, (k, v) ∈ E → jsNullish v = true) :
    (allPromisesSettled n E).resolved = none
      ∧ postToApi (some "app") "u1" "hi" none none (TransportResult.response 200 "\x7b\x7d")
        = PostOutcome.resolved JsVal.undef := by
  constructor
  · unfold allPromisesSettled
    apply aggRun_nullish_never E _ k rfl ?_ ?_ hnull
    · rw [List.length_replicate]
      exact hk
    · intro s hs
      rw [List.getElem?_replicate_of_lt hk] at hs
      cases hs
      rfl
  · rfl

/-- C10 witness: a batch of two settled submissions whose first outcome is
`null`: the aggregate hangs although both operations completed. -/
theorem allPromisesSettled_nullish_hangs_witness :
    (allPromisesSettled 2 [(0, JsVal.ofJson Json.null),
          (1, JsVal.ofJson (Json.str "ok"))]).resolved = none
      ∧ postToApi (some "app") "u1" "hi" none none (TransportResult.response 200 "\x7b\x7d")
        = PostOutcome.resolved JsVal.undef :=
  allPromisesSettled_nullish_hangs 2
    [(0, JsVal.ofJson Json.null), (1, JsVal.ofJson (Json.str "ok"))] 0
    (by decide)
    (by
      intro v hv
      rcases List.mem_cons.mp hv with h | h
      · injection h with h1 h2
        rw [h2]
        rfl
      · rcases List.mem_cons.mp h with h2 | h2
        · injection h2 with h1 _
          exact absurd h1 (by decide)
        · cases h2)

/-- C10 counterexample: a concrete Dispatcher submission whose outcome is
neither a string nor an `Error`: a 200 response with JSON body
`{"status":1}` (no `request` field) resolves with `undefined`, refuting
the claim's parenthetical that this cannot occur. -/
theorem postToApi_can_resolve_undefined :
    postToApi (some "app") "u1" "hi" none none
        (TransportResult.response 200 "\x7b\"status\":1\x7d")
      = PostOutcome.resolved JsVal.undef :=
  rfl
